import Mathlib

/-!
Shallow embedding of the `RandomUser` React component
(src/components/random-user.tsx) of the random-user-generator repository.

The component's React state hooks become fields of a `ComponentState`
record; the browser environment that the component mutates (the
`localStorage` key `"userHistory"`, the clipboard, `alert` calls) is
modelled as additional fields of the same record, so every handler is a
pure state transformer.  The one asynchronous operation, the network
fetch, is modelled by passing its outcome explicitly: `some p` for a
request that resolves and parses to the person `p`, `none` for a request
that rejects or whose JSON parsing throws.
-/

/-- The `User` interface of the source (the spec calls it Person):
`name`, `email`, `address`, `image`, `gender`, all strings.  Structural
equality of this record models the reference identity the source relies
on (the spec's design notes direct a port to key membership by a
synthetic per-fetch identity; distinct fetches are modelled by records
that differ in some field). -/
structure Person where
  name : String
  email : String
  address : String
  image : String
  gender : String
deriving DecidableEq, Repr

/-- The component state: the six `useState` hooks of the source, plus the
browser-environment cells the component writes (the `localStorage` value
under the `"userHistory"` key, the clipboard contents, and the list of
`alert` messages shown). -/
structure ComponentState where
  user : Option Person
  loading : Bool
  error : Option String
  userHistory : List Person
  favorites : List Person
  searchTerm : String
  storage : Option String
  clipboard : Option String
  alerts : List String
deriving DecidableEq, Repr

/-- Initial hook values: `useState(null)`, `useState(false)`,
`useState(null)`, `useState([])`, `useState([])`, `useState("")`; the
environment cells start empty. -/
def initState : ComponentState :=
  { user := none, loading := false, error := none, userHistory := []
  , favorites := [], searchTerm := "", storage := none
  , clipboard := none, alerts := [] }

/-- JSON string escaping as performed by `JSON.stringify` on the string
fields that occur here: backslash, double quote and newline are escaped. -/
def jsonEscapeChar (c : Char) : List Char :=
  if c = '"' then ['\\', '"']
  else if c = '\\' then ['\\', '\\']
  else if c = '\n' then ['\\', 'n']
  else [c]

/-- Escape a whole string for embedding in a JSON string literal. -/
def jsonEscape (s : String) : String :=
  String.mk (List.flatten (s.data.map jsonEscapeChar))

/-- `JSON.stringify` of one `User` record, with the field order of the
interface declaration (`name`, `email`, `address`, `image`, `gender`). -/
def serializePerson (p : Person) : String :=
  "\x7b\"name\":\"" ++ jsonEscape p.name
    ++ "\",\"email\":\"" ++ jsonEscape p.email
    ++ "\",\"address\":\"" ++ jsonEscape p.address
    ++ "\",\"image\":\"" ++ jsonEscape p.image
    ++ "\",\"gender\":\"" ++ jsonEscape p.gender
    ++ "\"\x7d"

/-- `JSON.stringify(userHistory)`: a JSON array of the serialized
records.  `JSON.stringify([])` is `"[]"`. -/
def serializeHistory (l : List Person) : String :=
  "[" ++ String.intercalate "," (l.map serializePerson) ++ "]"

/-- Read a JSON string literal body (the opening quote already consumed):
accumulate characters until the closing quote, undoing the escapes of
`jsonEscapeChar`.  `none` on an unterminated literal. -/
def parseStrAux : List Char → List Char → Option (String × List Char)
  | _, [] => none
  | acc, '\\' :: c :: rest =>
      parseStrAux ((if c = 'n' then '\n' else c) :: acc) rest
  | acc, '"' :: rest => some (String.mk acc.reverse, rest)
  | acc, c :: rest => parseStrAux (c :: acc) rest

/-- Consume an expected literal sequence of characters, returning the
remainder, or `none` on mismatch. -/
def expectChars : List Char → List Char → Option (List Char)
  | [], cs => some cs
  | e :: es, c :: cs => if e = c then expectChars es cs else none
  | _ :: _, [] => none

/-- Parse one `"key":"value"` pair for the given key, yielding the
unescaped value and the remainder. -/
def parseStringField (key : String) (cs : List Char) :
    Option (String × List Char) := do
  let cs1 ← expectChars ('"' :: key.data ++ ['"', ':', '"']) cs
  parseStrAux [] cs1

/-- Parse one serialized `User` object. -/
def parsePerson (cs : List Char) : Option (Person × List Char) := do
  let cs0 ← expectChars ['\x7b'] cs
  let (n, cs1) ← parseStringField "name" cs0
  let cs1b ← expectChars [','] cs1
  let (e, cs2) ← parseStringField "email" cs1b
  let cs2b ← expectChars [','] cs2
  let (a, cs3) ← parseStringField "address" cs2b
  let cs3b ← expectChars [','] cs3
  let (i, cs4) ← parseStringField "image" cs3b
  let cs4b ← expectChars [','] cs4
  let (g, cs5) ← parseStringField "gender" cs4b
  let cs6 ← expectChars ['\x7d'] cs5
  some ({ name := n, email := e, address := a, image := i, gender := g }, cs6)

/-- Parse a nonempty comma-separated sequence of serialized `User`
objects terminated by `]`; the fuel bounds the number of elements. -/
def parseItems : Nat → List Char → Option (List Person × List Char)
  | 0, _ => none
  | Nat.succ fuel, cs => do
      let (p, rest) ← parsePerson cs
      match rest with
      | ']' :: rest2 => some ([p], rest2)
      | ',' :: rest2 => do
          let (ps, rest3) ← parseItems fuel rest2
          some (p :: ps, rest3)
      | _ => none

/-- `JSON.parse` as applied to the stored `"userHistory"` value,
modelled on the array-of-`User` shape this component itself writes:
any input that is not such an array is a parse failure (`none`),
standing for the exception `JSON.parse` throws on malformed JSON. -/
def parseHistory (s : String) : Option (List Person) :=
  match s.data with
  | ['[', ']'] => some []
  | '[' :: rest =>
      match parseItems rest.length rest with
      | some (ps, []) => some ps
      | _ => none
  | _ => none

/-- The persistence `useEffect`: whenever `userHistory` changes,
`localStorage.setItem("userHistory", JSON.stringify(userHistory))`. -/
def persistHistory (s : ComponentState) : ComponentState :=
  { s with storage := some (serializeHistory s.userHistory) }

/-- The mount-time `useEffect` that loads stored history:
`localStorage.getItem("userHistory")` yields `stored`; if it is absent
the initial `useState([])` history stands; if present it is fed to
`JSON.parse` with no surrounding try/catch, so a parse failure (`none`)
propagates as an uncaught error instead of falling back to an empty
history. -/
def mountLoadHistory (stored : Option String) : Option (List Person) :=
  match stored with
  | none => some []
  | some s => parseHistory s

/-- The error message set in the catch block of `fetchRandomUser`. -/
def failMsg : String := "Failed to fetch user. Please try again."

/-- The prologue of `fetchRandomUser`: `setLoading(true); setError(null)`. -/
def fetchStart (s : ComponentState) : ComponentState :=
  { s with loading := true, error := none }

/-- The try/catch body of `fetchRandomUser` after the request settles:
on a response that parses to `newUser`, `setUser(newUser)` and
`setUserHistory(prev => [...prev, newUser])` (which triggers the
persistence effect); on rejection or parse failure, the catch block runs
`setError("Failed to fetch user. Please try again.")` — note it does not
touch `user`. -/
def fetchResolve (s : ComponentState) : Option Person → ComponentState
  | some p =>
      persistHistory
        { s with user := some p, userHistory := s.userHistory ++ [p] }
  | none => { s with error := some failMsg }

/-- The finally block: `setLoading(false)`. -/
def fetchFinally (s : ComponentState) : ComponentState :=
  { s with loading := false }

/-- One complete invocation of `fetchRandomUser`, its settled network
outcome passed explicitly (`some p`: success producing person `p`;
`none`: rejection or JSON failure). -/
def fetchRandomUser (s : ComponentState) (outcome : Option Person) :
    ComponentState :=
  fetchFinally (fetchResolve (fetchStart s) outcome)

/-- A sequence of `fetchRandomUser` invocations, run left to right. -/
def runFetches (s : ComponentState) (outcomes : List (Option Person)) :
    ComponentState :=
  outcomes.foldl fetchRandomUser s

/-- `favorites.includes(userToFavorite)`: membership by identity. -/
def includesRef : List Person → Person → Bool
  | [], _ => false
  | f :: rest, p => decide (f = p) || includesRef rest p

/-- `toggleFavorite`: if the person is in favorites, keep only the
entries that are not it (`favorites.filter(fav => fav !== user)`),
otherwise append it (`[...favorites, user]`). -/
def toggleFavorite (s : ComponentState) (p : Person) : ComponentState :=
  if includesRef s.favorites p then
    { s with favorites := s.favorites.filter (fun fav => !decide (fav = p)) }
  else
    { s with favorites := s.favorites ++ [p] }

/-- `clearHistory`: `setUserHistory([])`, which triggers the persistence
effect writing the (now empty) history to storage. -/
def clearHistory (s : ComponentState) : ComponentState :=
  persistHistory { s with userHistory := [] }

/-- `copyUserInfo`: when a current user exists, write the formatted
info string to the clipboard and show the acknowledgment alert;
otherwise do nothing at all. -/
def copyUserInfo (s : ComponentState) : ComponentState :=
  match s.user with
  | some u =>
      { s with
        clipboard := some ("Name: " ++ u.name ++ "\n" ++ "Email: "
          ++ u.email ++ "\n" ++ "Address: " ++ u.address)
        alerts := s.alerts ++ ["User information copied to clipboard!"] }
  | none => s

/-- Does the pattern occur at the start of the character list?
(`String.prototype.startsWith` on character lists.) -/
def listStartsWith : List Char → List Char → Bool
  | _, [] => true
  | [], _ :: _ => false
  | a :: as, b :: bs => decide (a = b) && listStartsWith as bs

/-- Substring occurrence on character lists, the model of
`String.prototype.includes`: the empty pattern occurs everywhere. -/
def listContainsSub : List Char → List Char → Bool
  | [], pat => listStartsWith [] pat
  | c :: t, pat => listStartsWith (c :: t) pat || listContainsSub t pat

/-- `s.includes(pat)` on strings. -/
def strIncludes (s pat : String) : Bool :=
  listContainsSub s.data pat.data

/-- `String.prototype.toLowerCase`, modelled characterwise. -/
def toLowerCase (s : String) : String :=
  String.mk (s.data.map Char.toLower)

/-- The filter predicate of `filteredHistory`:
`u.name.toLowerCase().includes(searchTerm.toLowerCase()) ||
 u.email.toLowerCase().includes(searchTerm.toLowerCase())`. -/
def matchesSearch (term : String) (u : Person) : Bool :=
  strIncludes (toLowerCase u.name) (toLowerCase term)
    || strIncludes (toLowerCase u.email) (toLowerCase term)

/-- `filteredHistory`, recomputed from the current history and search
term: `userHistory.filter(...)`. -/
def filteredHistory (history : List Person) (term : String) :
    List Person :=
  history.filter (matchesSearch term)

/-- A concrete person record, as it would be fetched and mapped from one
API response (matching the spec's Jane Doe scenario). -/
def jane : Person :=
  { name := "Jane Doe", email := "jane@x.com"
  , address := "1 Apple St, Berlin, Germany"
  , image := "https://example.org/jane.jpg", gender := "female" }

/-- A second concrete person record, distinct from `jane`. -/
def john : Person :=
  { name := "John Smith", email := "john@y.org"
  , address := "2 Birch St, Cork, Ireland"
  , image := "https://example.org/john.jpg", gender := "male" }

/-- `includes` tests membership: `includesRef l p` is `true` exactly when
`p` occurs in `l`. -/
theorem includesRef_iff (l : List Person) (p : Person) :
    includesRef l p = true ↔ p ∈ l := by
  induction l with
  | nil => simp [includesRef]
  | cons f rest ih =>
      simp [includesRef, ih, List.mem_cons]
      constructor
      · rintro (h | h)
        · exact Or.inl h.symm
        · exact Or.inr h
      · rintro (h | h)
        · exact Or.inl h.symm
        · exact Or.inr h

/-- `includes` returns `false` exactly on non-members. -/
theorem includesRef_false_iff (l : List Person) (p : Person) :
    includesRef l p = false ↔ p ∉ l := by
  rw [← includesRef_iff]
  cases includesRef l p <;> simp

/-- Filtering out a person that is not in the list leaves it unchanged. -/
theorem filter_ne_self_of_not_mem (l : List Person) (p : Person)
    (hp : p ∉ l) : l.filter (fun fav => !decide (fav = p)) = l := by
  refine List.filter_eq_self.mpr ?_
  intro a ha
  simp
  intro h
  exact hp (h ▸ ha)

/-- The removal filter of `toggleFavorite` removes every occurrence. -/
theorem not_mem_filter_ne (l : List Person) (p : Person) :
    p ∉ l.filter (fun fav => !decide (fav = p)) := by
  intro h
  have h2 := (List.mem_filter.mp h).2
  simp at h2

/-- The empty pattern occurs in every character list. -/
theorem listContainsSub_nil (cs : List Char) :
    listContainsSub cs [] = true := by
  cases cs <;> rfl

/-- `s.includes("")` is `true` for every string `s`. -/
theorem strIncludes_empty_pat (s : String) : strIncludes s "" = true := by
  have h : ("" : String).data = [] := rfl
  unfold strIncludes
  rw [h]
  exact listContainsSub_nil s.data

/-- Every history entry matches the empty search term. -/
theorem matchesSearch_empty_term (u : Person) :
    matchesSearch "" u = true := by
  have h : toLowerCase "" = "" := rfl
  unfold matchesSearch
  rw [h, strIncludes_empty_pat]
  simp

/-- Claim C1, counterexample: after a successful fetch followed by a
failed one, the state has BOTH a populated current person and an error
message, refuting "never both simultaneously". -/
theorem fetchRandomUser_both_nonnull_counterexample :
    (fetchRandomUser (fetchRandomUser initState (some jane)) none).user.isSome
        = true ∧
    (fetchRandomUser (fetchRandomUser initState (some jane)) none).error.isSome
        = true :=
  ⟨rfl, rfl⟩

/-- Claim C1, amended: after any invocation of `fetchRandomUser`
completes, at least one of a populated current person or an error message
is present; a successful fetch yields exactly the current-person side
(error null), and a failed fetch yields an error message while leaving
the current person unchanged — so both are non-null when a failure
follows a success. -/
theorem fetchRandomUser_completion_state :
    (∀ s p, (fetchRandomUser s (some p)).user = some p ∧
        (fetchRandomUser s (some p)).error = none) ∧
    (∀ s, (fetchRandomUser s none).error = some failMsg ∧
        (fetchRandomUser s none).user = s.user) ∧
    (∀ s o, (fetchRandomUser s o).user.isSome = true ∨
        (fetchRandomUser s o).error.isSome = true) := by
  refine ⟨fun s p => ⟨rfl, rfl⟩, fun s => ⟨rfl, rfl⟩, fun s o => ?_⟩
  cases o with
  | none => exact Or.inr rfl
  | some p => exact Or.inl rfl

/-- Claim C2: every failing fetch is caught — the loading flag is raised
by the prologue and lowered by the finally block, the error becomes the
non-empty string "Failed to fetch user. Please try again.", and the
current user state is left exactly as it was. -/
theorem fetchRandomUser_failure_handling :
    (∀ s, (fetchStart s).loading = true) ∧
    (∀ s, (fetchRandomUser s none).loading = false) ∧
    (∀ s, (fetchRandomUser s none).error = some failMsg) ∧
    failMsg ≠ "" ∧
    (∀ s, (fetchRandomUser s none).user = s.user) :=
  ⟨fun _ => rfl, fun _ => rfl, fun _ => rfl, by decide, fun _ => rfl⟩

/-- Claim C3, counterexample: with favorites `[jane, john]`, toggling
`jane` twice yields `[john, jane]`, not the prior state `[jane, john]` —
the re-append goes to the end, so the original order is not preserved. -/
theorem toggleFavorite_twice_counterexample :
    ¬ ((toggleFavorite (toggleFavorite
          { initState with favorites := [jane, john] } jane) jane).favorites
        = [jane, john]) := by decide

/-- Claim C3, amended: toggling the same person twice restores the prior
favorites when the person was initially absent; when initially present,
the double toggle removes every occurrence and re-appends the person at
the END, so the prior state is restored only if the person occurred
exactly once, in the last position. -/
theorem toggleFavorite_twice :
    (∀ s p, p ∉ s.favorites →
      (toggleFavorite (toggleFavorite s p) p).favorites = s.favorites) ∧
    (∀ s p, p ∈ s.favorites →
      (toggleFavorite (toggleFavorite s p) p).favorites
        = s.favorites.filter (fun fav => !decide (fav = p)) ++ [p]) := by
  constructor
  · intro s p hp
    have h1 : includesRef s.favorites p = false :=
      (includesRef_false_iff _ _).mpr hp
    have h2 : includesRef (s.favorites ++ [p]) p = true :=
      (includesRef_iff _ _).mpr (by simp)
    simp only [toggleFavorite, h1, Bool.false_eq_true, if_false, h2, if_true]
    rw [List.filter_append, filter_ne_self_of_not_mem _ _ hp]
    simp [List.filter]
  · intro s p hp
    have h1 : includesRef s.favorites p = true :=
      (includesRef_iff _ _).mpr hp
    have h2 : includesRef
        (s.favorites.filter (fun fav => !decide (fav = p))) p = false :=
      (includesRef_false_iff _ _).mpr (not_mem_filter_ne _ _)
    simp only [toggleFavorite, h1, if_true, h2, Bool.false_eq_true, if_false]

/-- Claim C3, witness: with favorites `[john]` and `jane` absent, two
toggles of `jane` restore `[john]`. -/
theorem toggleFavorite_twice_witness :
    (toggleFavorite (toggleFavorite
        { initState with favorites := [john] } jane) jane).favorites
      = [john] :=
  (toggleFavorite_twice).1 { initState with favorites := [john] } jane
    (by decide)

/-- Claim C4: after N successful fetches (no clears), the history equals
the initial history with the N fetched people appended in order, so its
length is the initial length plus N; each single successful fetch appends
exactly one person at the end (hence no reordering ever occurs). -/
theorem history_after_successful_fetches :
    (∀ (s : ComponentState) (ps : List Person),
      (runFetches s (ps.map some)).userHistory = s.userHistory ++ ps) ∧
    (∀ (s : ComponentState) (ps : List Person),
      (runFetches s (ps.map some)).userHistory.length
        = s.userHistory.length + ps.length) ∧
    (∀ s p, (fetchRandomUser s (some p)).userHistory
        = s.userHistory ++ [p]) := by
  have key : ∀ (ps : List Person) (s : ComponentState),
      (runFetches s (ps.map some)).userHistory = s.userHistory ++ ps := by
    intro ps
    induction ps with
    | nil => intro s; simp [runFetches]
    | cons p ps ih =>
        intro s
        have hstep : runFetches s ((p :: ps).map some)
            = runFetches (fetchRandomUser s (some p)) (ps.map some) := rfl
        rw [hstep, ih]
        have happ : (fetchRandomUser s (some p)).userHistory
            = s.userHistory ++ [p] := rfl
        rw [happ]
        simp
  exact ⟨fun s ps => key ps s,
    fun s ps => by rw [key ps s]; simp,
    fun s p => rfl⟩

/-- Claim C5: the search filter keeps exactly the history entries whose
lower-cased name or email contains the lower-cased term as a substring;
the empty term keeps the whole history, a term matched by no entry yields
the empty list, and the result is always a sublist of the history (no
mutation, no reordering). -/
theorem filteredHistory_spec :
    (∀ h t u, u ∈ filteredHistory h t ↔ u ∈ h ∧ matchesSearch t u = true) ∧
    (∀ h, filteredHistory h "" = h) ∧
    (∀ h t, (∀ u ∈ h, matchesSearch t u = false) →
      filteredHistory h t = []) ∧
    (∀ h t, (filteredHistory h t).Sublist h) := by
  refine ⟨fun h t u => List.mem_filter, fun h => ?_,
    fun h t hmatch => ?_, fun h t => List.filter_sublist h⟩
  · refine List.filter_eq_self.mpr ?_
    intro u _
    exact matchesSearch_empty_term u
  · refine List.filter_eq_nil_iff.mpr ?_
    intro u hu
    simp [hmatch u hu]

/-- Claim C5, witness: the term "zzz" matches neither `jane` nor `john`,
so filtering the history `[jane, john]` with it yields the empty list. -/
theorem filteredHistory_spec_witness :
    filteredHistory [jane, john] "zzz" = [] :=
  (filteredHistory_spec).2.2.1 [jane, john] "zzz" (by decide)

/-- Claim C6: `clearHistory` empties the history and cascades to a
persistence write, so the stored value becomes the serialization of the
empty array, which reads back as the empty array; every other state field
(favorites, user, error, loading, search term, clipboard, alerts) is
untouched. -/
theorem clearHistory_spec :
    ∀ s,
      (clearHistory s).userHistory = [] ∧
      (clearHistory s).storage = some (serializeHistory []) ∧
      serializeHistory [] = "[]" ∧
      parseHistory "[]" = some [] ∧
      (clearHistory s).favorites = s.favorites ∧
      (clearHistory s).user = s.user ∧
      (clearHistory s).error = s.error ∧
      (clearHistory s).loading = s.loading ∧
      (clearHistory s).searchTerm = s.searchTerm ∧
      (clearHistory s).clipboard = s.clipboard ∧
      (clearHistory s).alerts = s.alerts :=
  fun s => ⟨rfl, rfl, by decide, by decide, rfl, rfl, rfl, rfl,
    rfl, rfl, rfl⟩

set_option maxRecDepth 8192 in
/-- Claim C7: at mount, an absent stored value leaves the initial empty
history; a stored serialization of one person loads as a one-element
history (length 1); and a malformed stored value makes the unguarded
`JSON.parse` fail, which propagates as an uncaught error (`none`) rather
than falling back to an empty history. -/
theorem mountLoadHistory_spec :
    mountLoadHistory none = some [] ∧
    mountLoadHistory (some (serializeHistory [jane])) = some [jane] ∧
    (mountLoadHistory (some (serializeHistory [jane]))).map List.length
        = some 1 ∧
    mountLoadHistory (some "not json") = none :=
  ⟨rfl, by decide, by decide, by decide⟩

/-- The info string built by `copyUserInfo` is the newline-join of its
three labelled lines. -/
theorem userInfo_join (n e ad : String) :
    "Name: " ++ n ++ "\n" ++ "Email: " ++ e ++ "\n" ++ "Address: " ++ ad
      = String.intercalate "\n"
          ["Name: " ++ n, "Email: " ++ e, "Address: " ++ ad] := by
  have h1 : String.intercalate "\n"
        ["Name: " ++ n, "Email: " ++ e, "Address: " ++ ad]
      = (("Name: " ++ n) ++ "\n") ++ ("Email: " ++ e) ++ "\n"
          ++ ("Address: " ++ ad) := rfl
  rw [h1, ← String.append_assoc ("Name: " ++ n ++ "\n") "Email: " e,
    ← String.append_assoc
      ("Name: " ++ n ++ "\n" ++ "Email: " ++ e ++ "\n") "Address: " ad]

/-- Claim C8: when a current person exists, `copyUserInfo` writes the
person's name, email and address, newline-joined, to the clipboard and
shows the acknowledgment alert (touching no other state); when the
current person is null it is a complete no-op — no clipboard write, no
message, no state change at all. -/
theorem copyUserInfo_spec :
    (∀ s u, s.user = some u →
      (copyUserInfo s).clipboard
          = some (String.intercalate "\n"
              ["Name: " ++ u.name, "Email: " ++ u.email,
                "Address: " ++ u.address]) ∧
      (copyUserInfo s).alerts
          = s.alerts ++ ["User information copied to clipboard!"] ∧
      (copyUserInfo s).user = s.user ∧
      (copyUserInfo s).userHistory = s.userHistory ∧
      (copyUserInfo s).favorites = s.favorites ∧
      (copyUserInfo s).storage = s.storage) ∧
    (∀ s, s.user = none → copyUserInfo s = s) := by
  constructor
  · intro s u hu
    have hcu : copyUserInfo s
        = { s with
            clipboard := some ("Name: " ++ u.name ++ "\n" ++ "Email: "
              ++ u.email ++ "\n" ++ "Address: " ++ u.address)
            alerts := s.alerts
              ++ ["User information copied to clipboard!"] } := by
      unfold copyUserInfo
      rw [hu]
    rw [hcu]
    exact ⟨congrArg some (userInfo_join u.name u.email u.address),
      rfl, rfl, rfl, rfl, rfl⟩
  · intro s hs
    unfold copyUserInfo
    rw [hs]

/-- Claim C8, witness: with `jane` as the current person, the clipboard
receives her newline-joined info. -/
theorem copyUserInfo_spec_witness :
    (copyUserInfo { initState with user := some jane }).clipboard
      = some (String.intercalate "\n"
          ["Name: " ++ jane.name, "Email: " ++ jane.email,
            "Address: " ++ jane.address]) :=
  ((copyUserInfo_spec).1 { initState with user := some jane } jane rfl).1

/-- `toggleFavorite` preserves duplicate-freeness of favorites: removal
filters, and insertion only happens when the person is absent. -/
theorem toggleFavorite_preserves_nodup (s : ComponentState) (p : Person)
    (h : s.favorites.Nodup) : (toggleFavorite s p).favorites.Nodup := by
  cases hb : includesRef s.favorites p with
  | true =>
      simp only [toggleFavorite, hb, if_true]
      exact List.Nodup.filter _ h
  | false =>
      have hp : p ∉ s.favorites := (includesRef_false_iff _ _).mp hb
      simp only [toggleFavorite, hb, Bool.false_eq_true, if_false]
      rw [List.nodup_append]
      refine ⟨h, List.nodup_singleton p, ?_⟩
      intro a ha ha2
      simp at ha2
      subst ha2
      exact hp ha

/-- Claim C9: each single `toggleFavorite` preserves the invariant that
favorites contains no duplicate reference, and hence any sequence of
toggles starting from the empty favorites list yields a duplicate-free
favorites list. -/
theorem favorites_nodup_invariant :
    (∀ s p, s.favorites.Nodup → (toggleFavorite s p).favorites.Nodup) ∧
    (∀ (s : ComponentState) (ps : List Person), s.favorites = [] →
      ((ps.foldl toggleFavorite s).favorites).Nodup) := by
  have key : ∀ (ps : List Person) (s : ComponentState),
      s.favorites.Nodup → ((ps.foldl toggleFavorite s).favorites).Nodup := by
    intro ps
    induction ps with
    | nil => intro s h; exact h
    | cons p ps ih =>
        intro s h
        exact ih _ (toggleFavorite_preserves_nodup s p h)
  refine ⟨fun s p h => toggleFavorite_preserves_nodup s p h,
    fun s ps h0 => key ps s ?_⟩
  rw [h0]
  exact List.nodup_nil

/-- Claim C9, witness: toggling `jane`, `john`, then `jane` again from
the initial (empty-favorites) state yields a duplicate-free list. -/
theorem favorites_nodup_invariant_witness :
    (([jane, john, jane].foldl toggleFavorite initState).favorites).Nodup :=
  (favorites_nodup_invariant).2 initState [jane, john, jane] rfl

/-- Claim C10: a failed `fetchRandomUser` leaves the history, the
favorites, the persisted storage value and the search term exactly
unchanged — the history append (and its persistence write) lies only on
the success path. -/
theorem fetchRandomUser_failure_frame :
    ∀ s, (fetchRandomUser s none).userHistory = s.userHistory ∧
      (fetchRandomUser s none).favorites = s.favorites ∧
      (fetchRandomUser s none).storage = s.storage ∧
      (fetchRandomUser s none).searchTerm = s.searchTerm :=
  fun _ => ⟨rfl, rfl, rfl, rfl⟩
